import Mathlib

/-!
Verification of the chat-deletion / resource-reconciliation workflow of the
SUDAR educational-assistant repository.

The development shallowly embeds the relevant Python code:

* `src/server/main.py` — `delete_chat` (the deletion endpoint's control flow),
  `_sanitize_filename`, the upload endpoint's object-key construction, and the
  background-ingestion tag protocol `_schedule_ingestion`;
* `src/agent/services/vectorService.py` — `delete_chat_embeddings`,
  `delete_user_embeddings`;
* `src/agent/services/checkpointService.py` — `delete_chat_checkpoints`,
  `get_checkpoint_count`;
* `src/agent/utils/util.py` — the request-scoped user/chat context helpers.

Each external store is modelled as an explicit state value; Python exceptions
are modelled by explicit failure flags on the state (a flag set means the
corresponding client call raises, which the source catches and logs).
Mongo's `^user_` regex match is modelled as a literal string-prefix match
(identifiers containing regex metacharacters are outside the model).
-/

namespace Sudar

/-! ### Generic string helpers (kernel-reducible, over `List Char`) -/

/-- Substring test: `needle` occurs contiguously inside `hay`
(Python's `needle in hay`). -/
def listHasSub (needle : List Char) : List Char → Bool
  | [] => List.isPrefixOf needle []
  | c :: rest => List.isPrefixOf needle (c :: rest) || listHasSub needle rest

/-- Python `str.lower()` on the character list of a string. -/
def lowerChars (s : String) : List Char := s.data.map Char.toLower

/-! ### Object store (MinIO), from `src/server/main.py` -/

/-- One stored object: its key, its tag set, and a flag modelling a transient
`S3Error` raised by `remove_object` for this object. -/
structure MObj where
  key : String
  tags : List (String × String)
  removeFails : Bool
deriving DecidableEq

/-- The object-store state: the bucket's objects. -/
structure MinioState where
  objects : List MObj
deriving DecidableEq

/-- `minio_client.list_objects(bucket, prefix=pre, recursive=True)`:
all objects whose key starts with `pre`. -/
def list_objects (st : MinioState) (pre : String) : List MObj :=
  st.objects.filter (fun o => List.isPrefixOf pre.data o.key.data)

/-- `minio_client.remove_object(bucket, k)`: `none` models an `S3Error`
(the object's `removeFails` flag is set); otherwise the key is removed. -/
def remove_object (st : MinioState) (k : String) : Option MinioState :=
  if st.objects.any (fun o => o.key == k && o.removeFails) then none
  else some ⟨st.objects.filter (fun o => o.key != k)⟩

/-- One iteration of the deletion loop in `delete_chat` (main.py:305-309):
an `S3Error` is caught and logged, and the loop continues. -/
def removeStep (st : MinioState) (k : String) : MinioState :=
  match remove_object st k with
  | some st' => st'
  | none => st

/-- The whole per-object deletion loop of `delete_chat`. -/
def removeLoop (st : MinioState) (keys : List String) : MinioState :=
  keys.foldl removeStep st

/-! ### Vector index (Qdrant), from `src/agent/services/vectorService.py` -/

/-- One embedding point: its id and the `(user_id, chat_id)` payload fields. -/
structure EmbPoint where
  id : Nat
  user_id : String
  chat_id : String
deriving DecidableEq

/-- The vector-store state; `clientError` models any client/network error
raised during a service call (caught by the service's `try`/`except`). -/
structure QdrantState where
  collectionExists : Bool
  points : List EmbPoint
  clientError : Bool
deriving DecidableEq

/-- The scroll filter of `delete_chat_embeddings`: payload matches both
`user_id` and `chat_id`. -/
def embMatch (u c : String) (p : EmbPoint) : Bool :=
  p.user_id == u && p.chat_id == c

/-- `VectorService.delete_chat_embeddings` (vectorService.py:13-55): returns
the number of deleted points and the new store state. -/
def delete_chat_embeddings (st : QdrantState) (u c : String) : Nat × QdrantState :=
  if st.clientError then (0, st)
  else if !st.collectionExists then (0, st)
  else
    let ids := ((st.points.filter (embMatch u c)).take 10000).map (fun p => p.id)
    if 0 < ids.length then
      (ids.length, { st with points := st.points.filter (fun p => !(decide (p.id ∈ ids))) })
    else (0, st)

/-- `VectorService.delete_user_embeddings` (vectorService.py:57-98). -/
def delete_user_embeddings (st : QdrantState) (u : String) : Nat × QdrantState :=
  if st.clientError then (0, st)
  else if !st.collectionExists then (0, st)
  else
    let ids := ((st.points.filter (fun p => p.user_id == u)).take 10000).map (fun p => p.id)
    if 0 < ids.length then
      (ids.length, { st with points := st.points.filter (fun p => !(decide (p.id ∈ ids))) })
    else (0, st)

/-! ### Checkpoint store (MongoDB), from `src/agent/services/checkpointService.py` -/

/-- One Mongo document, as far as checkpoint matching is concerned: an optional
`thread_id` field and optional bare `user_id` / `chat_id` fields. -/
structure CkptDoc where
  thread_id : Option String
  user_id : Option String
  chat_id : Option String
deriving DecidableEq

/-- One Mongo collection; `bareScanFails` models the second-pass
`delete_many({"chat_id": ..., "user_id": ...})` raising for this collection
(swallowed per collection, checkpointService.py:53-55). -/
structure MCollection where
  name : String
  docs : List CkptDoc
  bareScanFails : Bool
deriving DecidableEq

/-- The Mongo database state; `opError` models a whole-operation failure
(caught by the outermost `try`/`except`, which returns 0). -/
structure MongoState where
  collections : List MCollection
  opError : Bool
deriving DecidableEq

/-- `'checkpoint' in name.lower()` — the collection-name heuristic. -/
def nameHasCkpt (n : String) : Bool :=
  listHasSub "checkpoint".data (lowerChars n)

/-- The composite thread id `f"{user_id}_{chat_id}"`
(checkpointService.py:17, main.py:216). -/
def threadId (u c : String) : String := u ++ "_" ++ c

/-- `{"thread_id": t}` document match. -/
def tidMatch (t : String) (d : CkptDoc) : Bool := d.thread_id == some t

/-- `{"chat_id": c, "user_id": u}` bare-field document match. -/
def bareMatch (u c : String) (d : CkptDoc) : Bool :=
  d.user_id == some u && d.chat_id == some c

/-- `{"thread_id": {"$regex": f"^{u}_"}}` modelled as a literal prefix match. -/
def tidPreMatch (u : String) (d : CkptDoc) : Bool :=
  match d.thread_id with
  | some t => List.isPrefixOf (u ++ "_").data t.data
  | none => false

/-- First pass of `delete_chat_checkpoints` on one collection: in collections
whose name contains "checkpoint", delete documents matching the thread id. -/
def pass1 (t : String) (col : MCollection) : Nat × MCollection :=
  if nameHasCkpt col.name then
    ((col.docs.filter (tidMatch t)).length,
     { col with docs := col.docs.filter (fun d => !(tidMatch t d)) })
  else (0, col)

/-- Second pass on one collection (every collection of the database): delete
documents whose bare `user_id` and `chat_id` fields both match; a raising
collection is skipped. -/
def pass2 (u c : String) (col : MCollection) : Nat × MCollection :=
  if col.bareScanFails then (0, col)
  else
    ((col.docs.filter (bareMatch u c)).length,
     { col with docs := col.docs.filter (fun d => !(bareMatch u c d)) })

/-- `CheckpointService.delete_chat_checkpoints` (checkpointService.py:13-64):
both passes' deleted counts are summed; a whole-operation error yields 0. -/
def delete_chat_checkpoints (st : MongoState) (u c : String) : Nat × MongoState :=
  if st.opError then (0, st)
  else
    let r1 := st.collections.map (pass1 (threadId u c))
    let r2 := (r1.map Prod.snd).map (pass2 u c)
    ((r1.map Prod.fst).sum + (r2.map Prod.fst).sum,
     { st with collections := r2.map Prod.snd })

/-- `CheckpointService.get_checkpoint_count` (checkpointService.py:121-146):
read-only, scoped to checkpoint-named collections; `none` or `""` for the
chat id takes Python's falsy branch (the `^user_` regex). -/
def get_checkpoint_count (st : MongoState) (u : String) (c : Option String) : Nat :=
  if st.opError then 0
  else
    ((st.collections.filter (fun col => nameHasCkpt col.name)).map (fun col =>
      match c with
      | some cc =>
          if cc != "" then (col.docs.filter (tidMatch (threadId u cc))).length
          else (col.docs.filter (tidPreMatch u)).length
      | none => (col.docs.filter (tidPreMatch u)).length)).sum

/-! ### Chat-history store -/

/-- Modelled from the spec: `ChatService` (the message store) is not among the
sources — only its callers are. Per spec §2/§3, it keeps messages keyed by the
composite `(user_id, chat_id)`. -/
structure ChatMsg where
  user_id : String
  chat_id : String
deriving DecidableEq

/-- Modelled from the spec: the message-store state; `deleteFails` models the
one fatal failure mode of `deleteChatHistory` (spec §7). -/
structure ChatStoreState where
  messages : List ChatMsg
  deleteFails : Bool
deriving DecidableEq

/-- Modelled from the spec: `ChatService.getUserChat` returns the chat's
messages for the composite key. -/
def getUserChat (st : ChatStoreState) (u c : String) : List ChatMsg :=
  st.messages.filter (fun m => m.user_id == u && m.chat_id == c)

/-- Modelled from the spec: `ChatService.deleteChatHistory` removes the chat's
messages and reports success; on failure it reports `false` and removes
nothing. -/
def deleteChatHistory (st : ChatStoreState) (u c : String) : Bool × ChatStoreState :=
  if st.deleteFails then (false, st)
  else
    (true,
     { st with messages := st.messages.filter (fun m => !(m.user_id == u && m.chat_id == c)) })

/-! ### The deletion endpoint, from `src/server/main.py` -/

/-- The four backing stores seen by the deletion endpoint. -/
structure SysState where
  minio : MinioState
  qdrant : QdrantState
  mongo : MongoState
  chats : ChatStoreState
deriving DecidableEq

/-- The caller-visible outcome of `delete_chat`: HTTP 404, HTTP 500, or the
success response with its four counts (files, messages, embeddings,
checkpoints). -/
inductive DeleteOutcome where
  | notFound
  | internalError
  | ok (files msgs embs ckpts : Nat)
deriving DecidableEq

/-- The chat's storage prefix `f"{user_id}/{chat_id}/"` (main.py:292). -/
def chatPre (u c : String) : String := u ++ "/" ++ c ++ "/"

/-- The `delete_chat` endpoint (main.py:280-334): list objects, count
messages, 404 if no messages, then best-effort deletion of objects,
embeddings and checkpoints, and finally the (fatal-on-failure) message
history deletion. -/
def delete_chat (st : SysState) (u c : String) : DeleteOutcome × SysState :=
  let files_to_delete := list_objects st.minio (chatPre u c)
  let files_count := files_to_delete.length
  let messages_count := (getUserChat st.chats u c).length
  if messages_count == 0 then (.notFound, st)
  else
    let minio' := removeLoop st.minio (files_to_delete.map (fun o => o.key))
    let embRes := delete_chat_embeddings st.qdrant u c
    let ckRes := delete_chat_checkpoints st.mongo u c
    let delRes := deleteChatHistory st.chats u c
    let st' : SysState := ⟨minio', embRes.2, ckRes.2, delRes.2⟩
    if delRes.1 then
      (.ok files_count messages_count embRes.1 ckRes.1, st')
    else (.internalError, st')

/-! ### Filename sanitization and the upload key, from `src/server/main.py` -/

/-- The character class `[0-9a-zA-Z._-]` of `_sanitize_filename`. -/
def allowedChar (c : Char) : Bool :=
  (('0' ≤ c) && (c ≤ '9')) || (('a' ≤ c) && (c ≤ 'z')) ||
  (('A' ≤ c) && (c ≤ 'Z')) || (c == '.') || (c == '_') || (c == '-')

/-- `re.sub(r"[^0-9a-zA-Z._-]", "_", ·)` on one character. -/
def replChar (c : Char) : Char := if allowedChar c then c else '_'

/-- Membership in the strip set of `.strip("._")`. -/
def isDotUnd (c : Char) : Bool := c == '.' || c == '_'

/-- Python `str.strip("._")`: drop leading and trailing `.`/`_` characters. -/
def stripDotUnd (l : List Char) : List Char :=
  ((l.dropWhile isDotUnd).reverse.dropWhile isDotUnd).reverse

/-- `os.path.basename`: the segment after the last `/`. -/
def pybasename (s : List Char) : List Char :=
  s.foldl (fun acc c => if c = '/' then [] else acc ++ [c]) []

/-- `os.path.splitext` on a slash-free name: split at the last dot, unless
every character before that dot is itself a dot (CPython `genericpath`). -/
def pysplitext (s : List Char) : List Char × List Char :=
  match s.reverse.findIdx? (fun c => c = '.') with
  | none => (s, [])
  | some k =>
      let d := s.length - 1 - k
      if (s.take d).any (fun c => c ≠ '.') then (s.take d, s.drop d) else (s, [])

/-- The stem treatment of `_sanitize_filename` (main.py:64):
`re.sub(...).strip("._") or "document"`. -/
def safeStem (nm : List Char) : List Char :=
  let s := stripDotUnd (nm.map replChar)
  if s = [] then "document".data else s

/-- `_sanitize_filename` (main.py:61-65): sanitize the stem of the basename
and re-attach the extension returned by `splitext` unchanged. -/
def sanitize_filename (f : String) : String :=
  let b := pybasename f.data
  ⟨safeStem (pysplitext b).1 ++ (pysplitext b).2⟩

/-- The upload endpoint's object key `f"{user_id}/{chat_id}/{sanitized_name}"`
(main.py:348-349). -/
def uploadObjectKey (u c f : String) : String :=
  u ++ "/" ++ c ++ "/" ++ sanitize_filename f

/-- The sanitization procedure exactly as claim C7 words it, for comparison
with the source's `sanitize_filename`: strip path components, replace every
character outside `[0-9a-zA-Z._-]` with `_`, trim leading/trailing `.`/`_`,
default to `document` when empty. -/
def claimSanitize (f : String) : String :=
  let cleaned := stripDotUnd ((pybasename f.data).map replChar)
  ⟨if cleaned = [] then "document".data else cleaned⟩

/-- The object key as claim C7 words it. -/
def claimKey (u c f : String) : String :=
  u ++ "/" ++ c ++ "/" ++ claimSanitize f

/-! ### The background-ingestion tag protocol, from `src/server/main.py` -/

/-- `tag_dict["status"] = status_value` on a tag set (Python dict update:
replace the value of the key in place when present — tag keys are unique —
and append the pair at the end otherwise). -/
def setTag : List (String × String) → String → String → List (String × String)
  | [], k, v => [(k, v)]
  | p :: t, k, v => if p.1 == k then (k, v) :: t else p :: setTag t k v

/-- Lookup of one tag key in a tag set. -/
def tagLookup (t : List (String × String)) (k : String) : Option String :=
  (t.find? (fun p => p.1 == k)).map (fun p => p.2)

/-- The `finally` block of the ingestion worker (main.py:82-93): re-read the
object's current tags, replace `status` with `indexed` (success) or `error`
(any ingestion exception), and write the full set back; if the object is gone,
`get_object_tags` raises and the failure is caught and logged. The
`ingestFails` flag models an exception from the parse/embed/store pipeline. -/
def ingest (st : MinioState) (objectKey : String) (ingestFails : Bool) : MinioState :=
  let statusValue := if ingestFails then "error" else "indexed"
  if st.objects.any (fun o => o.key == objectKey) then
    ⟨st.objects.map (fun o =>
      if o.key == objectKey then { o with tags := setTag o.tags "status" statusValue }
      else o)⟩
  else st

/-! ### Request-scoped context, from `src/agent/utils/util.py` -/

/-- The environment defaults `USER_ID` / `CHAT_ID` imported from `envconfig`
(not among the sources; modelled as parameters). -/
structure EnvConfig where
  USER_ID : String
  CHAT_ID : String

/-- `set_user_chat_context` (util.py:63-66). -/
def set_user_chat_context (u c : String) (_ctx : Option (String × String)) :
    Option (String × String) := some (u, c)

/-- `clear_user_chat_context` (util.py:69-72). -/
def clear_user_chat_context (_ctx : Option (String × String)) :
    Option (String × String) := none

/-- `getUserIdChatId` (util.py:75-84): the context value when set, otherwise
the environment defaults. -/
def getUserIdChatId (env : EnvConfig) (ctx : Option (String × String)) :
    String × String :=
  match ctx with
  | some v => v
  | none => (env.USER_ID, env.CHAT_ID)

/-! ### Derived predicates used in the statements -/

/-- A document is removed by `delete_chat_checkpoints u c` from collection
`col` exactly when it matches the composite thread id inside a
checkpoint-named collection, or its bare fields both match. -/
def ckptDelMatch (u c : String) (col : MCollection) (d : CkptDoc) : Bool :=
  (nameHasCkpt col.name && tidMatch (threadId u c) d) || bareMatch u c d

/-- A checkpoint document keyed consistently for chat `(u, c)`: its
`thread_id`, when present, is the chat's composite thread id, and its bare
fields, when present, are the chat's pair. -/
def wellKeyed (u c : String) (d : CkptDoc) : Bool :=
  (d.thread_id == some (threadId u c) || d.thread_id == none) &&
  ((d.user_id == some u && d.chat_id == some c) ||
   (d.user_id == none && d.chat_id == none))

/-- The checkpoint documents addressable under chat `(u, c)` — matched by the
composite thread id or by both bare fields, across all collections. -/
def chatCkptDocs (st : MongoState) (u c : String) : List CkptDoc :=
  (st.collections.map (fun col =>
    col.docs.filter (fun d => tidMatch (threadId u c) d || bareMatch u c d))).flatten

/-! ### Concrete example states -/

/-- Chat `("u","c")` with one message and two stored objects, the first of
which fails to delete; vector and checkpoint stores empty. -/
def exC1 : SysState :=
  { minio := ⟨[⟨"u/c/a", [], true⟩, ⟨"u/c/b", [], false⟩]⟩,
    qdrant := ⟨false, [], false⟩,
    mongo := ⟨[], false⟩,
    chats := ⟨[⟨"u", "c"⟩], false⟩ }

/-- A fully benign state for chat `("u","c")`: two objects (one failing to
delete), one matching and one foreign embedding point, a checkpoint-named
collection with a composite-keyed document plus a bare-keyed document in a
foreign collection, and one message. -/
def wC1 : SysState :=
  { minio := ⟨[⟨"u/c/a", [], true⟩, ⟨"u/c/b", [], false⟩]⟩,
    qdrant := ⟨true, [⟨1, "u", "c"⟩, ⟨2, "u", "z"⟩], false⟩,
    mongo := ⟨[⟨"checkpoints", [⟨some "u_c", none, none⟩, ⟨some "u_z", none, none⟩], false⟩,
               ⟨"writes", [⟨none, some "u", some "c"⟩], false⟩], false⟩,
    chats := ⟨[⟨"u", "c"⟩, ⟨"u", "z"⟩], false⟩ }

/-- Chats `A = ("a","b_c")` and `B = ("a_b","c")` are distinct but share the
composite thread id `"a_b_c"`; `B`'s only checkpoint record is keyed by that
thread id (and by `B`'s bare fields); `A` has one message. -/
def exC2 : SysState :=
  { minio := ⟨[]⟩,
    qdrant := ⟨true, [], false⟩,
    mongo := ⟨[⟨"checkpoints", [⟨some "a_b_c", some "a_b", some "c"⟩], false⟩], false⟩,
    chats := ⟨[⟨"a", "b_c"⟩], false⟩ }

/-- Two chats `("u1","c1")` and `("u1","c2")` of the same user, each owning a
message, an object, an embedding point and a checkpoint document. -/
def wC2 : SysState :=
  { minio := ⟨[⟨"u1/c1/a.txt", [], false⟩, ⟨"u1/c2/b.txt", [], false⟩]⟩,
    qdrant := ⟨true, [⟨1, "u1", "c1"⟩, ⟨2, "u1", "c2"⟩], false⟩,
    mongo := ⟨[⟨"checkpoints", [⟨some "u1_c1", none, none⟩, ⟨some "u1_c2", none, none⟩], false⟩], false⟩,
    chats := ⟨[⟨"u1", "c1"⟩, ⟨"u1", "c2"⟩], false⟩ }

/-- A state whose only chat `("u","c")` has no messages but does own an
object, an embedding point and a checkpoint document. -/
def wC3 : SysState :=
  { minio := ⟨[⟨"u/c/a", [], false⟩]⟩,
    qdrant := ⟨true, [⟨1, "u", "c"⟩], false⟩,
    mongo := ⟨[⟨"checkpoints", [⟨some "u_c", none, none⟩], false⟩], false⟩,
    chats := ⟨[⟨"other", "c"⟩], false⟩ }

/-- A state for chat `("u","c")` whose message-history deletion fails. -/
def wC4 : SysState :=
  { minio := ⟨[]⟩,
    qdrant := ⟨false, [], false⟩,
    mongo := ⟨[], false⟩,
    chats := ⟨[⟨"u", "c"⟩], true⟩ }

/-- A vector-store state whose backing collection is missing. -/
def wC5 : QdrantState := ⟨false, [⟨1, "u", "c"⟩], false⟩

/-- A database with a single non-checkpoint-named collection holding one
document keyed only by bare `user_id`/`chat_id` fields. -/
def exC6 : MongoState :=
  ⟨[⟨"user_data", [⟨none, some "u1", some "c1"⟩], false⟩], false⟩

/-- A single-chat state used to run `deleteChat` twice. -/
def wC8 : SysState :=
  { minio := ⟨[⟨"u/c/a", [], false⟩]⟩,
    qdrant := ⟨true, [⟨1, "u", "c"⟩], false⟩,
    mongo := ⟨[⟨"checkpoints", [⟨some "u_c", none, none⟩], false⟩], false⟩,
    chats := ⟨[⟨"u", "c"⟩], false⟩ }

/-- The state left behind by a successful `delete_chat wC8 "u" "c"`. -/
def wC8' : SysState :=
  { minio := ⟨[]⟩,
    qdrant := ⟨true, [], false⟩,
    mongo := ⟨[⟨"checkpoints", [], false⟩], false⟩,
    chats := ⟨[], false⟩ }

/-- An object store with one ingested object carrying `status=processing`
among other tags, and one unrelated object. -/
def wC9 : MinioState :=
  ⟨[⟨"u/c/doc.pdf", [("user_id", "u"), ("chat_id", "c"), ("type", "UploadedDocument"),
      ("status", "processing")], false⟩,
    ⟨"u/z/other.pdf", [("status", "processing")], false⟩]⟩

/-! ## General list lemmas -/

theorem filter_filter_of_imp {α : Type} (p q : α → Bool) (l : List α)
    (h : ∀ a ∈ l, q a = true → p a = true) :
    (l.filter p).filter q = l.filter q := by
  induction l with
  | nil => rfl
  | cons a t ih =>
      have ht : ∀ b ∈ t, q b = true → p b = true :=
        fun b hb => h b (List.mem_cons_of_mem a hb)
      cases hq : q a
      · cases hp : p a <;> simp [List.filter_cons, hp, hq, ih ht]
      · have hp : p a = true := h a (List.mem_cons_self a t) hq
        simp [List.filter_cons, hp, hq, ih ht]

theorem filter_not_filter_self {α : Type} (p : α → Bool) (l : List α) :
    (l.filter (fun a => !(p a))).filter p = [] := by
  induction l with
  | nil => rfl
  | cons a t ih => cases hp : p a <;> simp [List.filter_cons, hp, ih]

theorem sum_map_add {α : Type} (f g : α → Nat) (l : List α) :
    (l.map (fun a => f a + g a)).sum = (l.map f).sum + (l.map g).sum := by
  induction l with
  | nil => rfl
  | cons a t ih => simp [ih]; omega

theorem filter_or_length {α : Type} (p q : α → Bool) (l : List α) :
    (l.filter p).length + ((l.filter (fun a => !(p a))).filter q).length
      = (l.filter (fun a => p a || q a)).length := by
  induction l with
  | nil => rfl
  | cons a t ih =>
      cases hp : p a <;> cases hq : q a <;>
        simp [List.filter_cons, hp, hq, List.filter_filter] at ih ⊢ <;> omega

/-! ## Unfolding lemmas for the deletion endpoint -/

theorem delete_chat_of_no_messages (st : SysState) (u c : String)
    (h : getUserChat st.chats u c = []) :
    delete_chat st u c = (DeleteOutcome.notFound, st) := by
  simp [delete_chat, h]

theorem delete_chat_ok_case (st : SysState) (u c : String)
    (h : getUserChat st.chats u c ≠ []) (hd : st.chats.deleteFails = false) :
    delete_chat st u c =
      (DeleteOutcome.ok (list_objects st.minio (chatPre u c)).length
         (getUserChat st.chats u c).length
         (delete_chat_embeddings st.qdrant u c).1
         (delete_chat_checkpoints st.mongo u c).1,
       ⟨removeLoop st.minio ((list_objects st.minio (chatPre u c)).map (fun o => o.key)),
        (delete_chat_embeddings st.qdrant u c).2,
        (delete_chat_checkpoints st.mongo u c).2,
        { st.chats with messages := st.chats.messages.filter (fun m => !(m.user_id == u && m.chat_id == c)) }⟩) := by
  simp only [delete_chat]
  rw [if_neg (by simp [List.length_eq_zero, h])]
  simp [deleteChatHistory, hd]

theorem delete_chat_err_case (st : SysState) (u c : String)
    (h : getUserChat st.chats u c ≠ []) (hd : st.chats.deleteFails = true) :
    delete_chat st u c =
      (DeleteOutcome.internalError,
       ⟨removeLoop st.minio ((list_objects st.minio (chatPre u c)).map (fun o => o.key)),
        (delete_chat_embeddings st.qdrant u c).2,
        (delete_chat_checkpoints st.mongo u c).2,
        st.chats⟩) := by
  simp only [delete_chat]
  rw [if_neg (by simp [List.length_eq_zero, h])]
  simp [deleteChatHistory, hd]

/-! ## Claims -/

/-- C3: for every `(user_id, chat_id)` whose message history is empty,
`deleteChat` returns the 404 "not found" outcome and leaves all four stores
exactly as they were — no object, embedding point, checkpoint record or
message is removed. -/
theorem claim_C3_notFound_no_deletions (st : SysState) (u c : String)
    (h : getUserChat st.chats u c = []) :
    delete_chat st u c = (DeleteOutcome.notFound, st) :=
  delete_chat_of_no_messages st u c h

/-- Witness for C3: a concrete state with no messages for `("u","c")` but with
an object, an embedding point and a checkpoint document, all untouched. -/
theorem claim_C3_witness :
    getUserChat wC3.chats "u" "c" = [] ∧
    delete_chat wC3 "u" "c" = (DeleteOutcome.notFound, wC3) :=
  ⟨by decide, claim_C3_notFound_no_deletions wC3 "u" "c" (by decide)⟩

/-- C5: `delete_chat_embeddings` and `delete_user_embeddings` never surface an
error: a missing backing collection yields `(0, unchanged)`, a client/network
error (the `clientError` flag, caught by the services' `except`) yields
`(0, unchanged)`, and zero matching points is the normal `(0, unchanged)`
outcome. -/
theorem claim_C5_vector_soft_failures (st : QdrantState) (u c : String) :
    (st.collectionExists = false →
      delete_chat_embeddings st u c = (0, st) ∧ delete_user_embeddings st u = (0, st)) ∧
    (st.clientError = true →
      delete_chat_embeddings st u c = (0, st) ∧ delete_user_embeddings st u = (0, st)) ∧
    (st.points.filter (embMatch u c) = [] → delete_chat_embeddings st u c = (0, st)) ∧
    (st.points.filter (fun p => p.user_id == u) = [] →
      delete_user_embeddings st u = (0, st)) := by
  refine ⟨fun hc => ?_, fun he => ?_, fun hm => ?_, fun hm => ?_⟩
  · cases herr : st.clientError <;>
      simp [delete_chat_embeddings, delete_user_embeddings, hc, herr]
  · simp [delete_chat_embeddings, delete_user_embeddings, he]
  · cases herr : st.clientError
    · cases hex : st.collectionExists <;>
        simp [delete_chat_embeddings, herr, hex, hm]
    · simp [delete_chat_embeddings, herr]
  · cases herr : st.clientError
    · cases hex : st.collectionExists <;>
        simp [delete_user_embeddings, herr, hex, hm]
    · simp [delete_user_embeddings, herr]

/-- Witness for C5: on a state whose collection is missing, both deletions
return 0 and change nothing. -/
theorem claim_C5_witness :
    wC5.collectionExists = false ∧
    delete_chat_embeddings wC5 "u" "c" = (0, wC5) ∧
    delete_user_embeddings wC5 "u" = (0, wC5) := by
  refine ⟨by decide, ?_, ?_⟩
  · exact ((claim_C5_vector_soft_failures wC5 "u" "c").1 (by decide)).1
  · exact ((claim_C5_vector_soft_failures wC5 "u" "c").1 (by decide)).2

/-- C10: with the request-scoped context unset — never set, or cleared via
`clear_user_chat_context` — `getUserIdChatId` does not fail but returns the
environment defaults `(USER_ID, CHAT_ID)`. -/
theorem claim_C10_context_defaults (env : EnvConfig) :
    getUserIdChatId env none = (env.USER_ID, env.CHAT_ID) ∧
    ∀ ctx, getUserIdChatId env (clear_user_chat_context ctx) =
      (env.USER_ID, env.CHAT_ID) :=
  ⟨rfl, fun _ => rfl⟩

/-- C4: when the chat exists, a failing message-history deletion (the one
fatal step) surfaces as the 500 outcome with no success counts, whereas a
succeeding one always yields the success outcome — no other store's failure
can produce a caller-visible error. -/
theorem claim_C4_history_failure_fatal (st : SysState) (u c : String)
    (h : getUserChat st.chats u c ≠ []) :
    (st.chats.deleteFails = true →
      (delete_chat st u c).1 = DeleteOutcome.internalError) ∧
    (st.chats.deleteFails = false →
      (delete_chat st u c).1 =
        DeleteOutcome.ok (list_objects st.minio (chatPre u c)).length
          (getUserChat st.chats u c).length
          (delete_chat_embeddings st.qdrant u c).1
          (delete_chat_checkpoints st.mongo u c).1) := by
  constructor
  · intro hd; rw [delete_chat_err_case st u c h hd]
  · intro hd; rw [delete_chat_ok_case st u c h hd]

/-- Witness for C4: a concrete chat whose history deletion fails. -/
theorem claim_C4_witness :
    getUserChat wC4.chats "u" "c" ≠ [] ∧ wC4.chats.deleteFails = true ∧
    (delete_chat wC4 "u" "c").1 = DeleteOutcome.internalError :=
  ⟨by decide, by decide,
   (claim_C4_history_failure_fatal wC4 "u" "c" (by decide)).1 (by decide)⟩

/-- C8: `deleteChat` is idempotent in outcome — after one successful call,
a second call on the same `(user_id, chat_id)` reports "not found" and
changes nothing. -/
theorem claim_C8_idempotent (st st' : SysState) (u c : String) (M N K J : Nat)
    (h : delete_chat st u c = (DeleteOutcome.ok M N K J, st')) :
    delete_chat st' u c = (DeleteOutcome.notFound, st') := by
  by_cases h0 : getUserChat st.chats u c = []
  · rw [delete_chat_of_no_messages st u c h0] at h
    exact absurd (congrArg Prod.fst h) (by simp)
  · by_cases hd : st.chats.deleteFails = true
    · rw [delete_chat_err_case st u c h0 hd] at h
      exact absurd (congrArg Prod.fst h) (by simp)
    · rw [delete_chat_ok_case st u c h0 (by simpa using hd)] at h
      have hs : st' = _ := (congrArg Prod.snd h).symm
      rw [hs]
      apply delete_chat_of_no_messages
      simp [getUserChat, filter_not_filter_self]

/-- Witness for C8: a concrete successful deletion followed by a second call
that reports "not found" without further deletions. -/
theorem claim_C8_witness :
    delete_chat wC8 "u" "c" = (DeleteOutcome.ok 1 1 1 1, wC8') ∧
    delete_chat wC8' "u" "c" = (DeleteOutcome.notFound, wC8') :=
  ⟨by decide, claim_C8_idempotent wC8 wC8' "u" "c" 1 1 1 1 (by decide)⟩

/-! ## Count characterizations for the success response (C1, C6) -/

theorem delete_chat_embeddings_count (st : QdrantState) (u c : String)
    (he : st.clientError = false) (hc : st.collectionExists = true)
    (hn : (st.points.filter (embMatch u c)).length ≤ 10000) :
    (delete_chat_embeddings st u c).1 = (st.points.filter (embMatch u c)).length := by
  simp only [delete_chat_embeddings, he, hc, Bool.not_true, Bool.false_eq_true,
    if_false, List.take_of_length_le hn]
  rcases Nat.eq_zero_or_pos (st.points.filter (embMatch u c)).length with h0 | h0
  · simp [h0]
  · simp [h0]

theorem pass_count (u c : String) (col : MCollection)
    (hb : col.bareScanFails = false) :
    (pass1 (threadId u c) col).1 + (pass2 u c (pass1 (threadId u c) col).2).1
      = (col.docs.filter (ckptDelMatch u c col)).length := by
  by_cases hn : nameHasCkpt col.name = true
  · have hcd : (fun d => ckptDelMatch u c col d)
        = (fun d => tidMatch (threadId u c) d || bareMatch u c d) := by
      funext d; simp [ckptDelMatch, hn]
    simp only [pass1, hn, if_true, pass2, hb, Bool.false_eq_true, if_false, hcd]
    exact filter_or_length _ _ _
  · have hn' : nameHasCkpt col.name = false := by simpa using hn
    have hcd : ckptDelMatch u c col = bareMatch u c := by
      funext d; simp [ckptDelMatch, hn']
    simp [pass1, pass2, hn', hb, hcd]

theorem delete_ckpts_count (st : MongoState) (u c : String)
    (ho : st.opError = false)
    (hb : ∀ col ∈ st.collections, col.bareScanFails = false) :
    (delete_chat_checkpoints st u c).1 =
      (st.collections.map (fun col =>
        (col.docs.filter (ckptDelMatch u c col)).length)).sum := by
  simp only [delete_chat_checkpoints, ho, Bool.false_eq_true, if_false,
    List.map_map]
  rw [← sum_map_add]
  apply congrArg List.sum
  apply List.map_congr_left
  intro col hcol
  simpa [Function.comp] using pass_count u c col (hb col hcol)

theorem sum_pass1 (t : String) (cols : List MCollection) :
    (cols.map (fun col => (pass1 t col).1)).sum =
      ((cols.filter (fun col => nameHasCkpt col.name)).map
        (fun col => (col.docs.filter (tidMatch t)).length)).sum := by
  induction cols with
  | nil => rfl
  | cons a l ih =>
      rw [List.map_cons, List.sum_cons, ih, List.filter_cons]
      by_cases hn : nameHasCkpt a.name = true
      · rw [if_pos hn, List.map_cons, List.sum_cons]
        have h1 : (pass1 t a).1 = (a.docs.filter (tidMatch t)).length := by
          simp [pass1, hn]
        rw [h1]
      · rw [if_neg hn]
        have h1 : (pass1 t a).1 = 0 := by simp [pass1, hn]
        rw [h1, Nat.zero_add]

/-- C1 counterexample: with two objects listed for the chat and the deletion
of the first failing, the success response still reports
`deleted_files_count = 2` although only one object was actually deleted (one
of the two remains in the store) — the count reflects the pre-deletion
listing, not the successes. -/
theorem claim_C1_counterexample :
    exC1.minio.objects.length = 2 ∧
    (delete_chat exC1 "u" "c").1 = DeleteOutcome.ok 2 1 0 0 ∧
    ((delete_chat exC1 "u" "c").2.minio.objects.map (fun o => o.key)) = ["u/c/a"] := by
  refine ⟨by decide, by decide, by decide⟩

/-- C1 amended: when `deleteChat` succeeds, its response counts equal the
number of objects listed under the chat prefix before deletion started (even
when some per-object deletions fail), the number N of messages, the number K
of matching embedding points (scan cap permitting, no client error), and the
number J of checkpoint documents matched by the composite thread id in
checkpoint-named collections or by both bare fields anywhere. -/
theorem claim_C1_amended_counts (st : SysState) (u c : String)
    (hmsg : getUserChat st.chats u c ≠ [])
    (hdel : st.chats.deleteFails = false)
    (he : st.qdrant.clientError = false)
    (hc : st.qdrant.collectionExists = true)
    (hn : (st.qdrant.points.filter (embMatch u c)).length ≤ 10000)
    (ho : st.mongo.opError = false)
    (hb : ∀ col ∈ st.mongo.collections, col.bareScanFails = false) :
    (delete_chat st u c).1 =
      DeleteOutcome.ok (list_objects st.minio (chatPre u c)).length
        (getUserChat st.chats u c).length
        (st.qdrant.points.filter (embMatch u c)).length
        ((st.mongo.collections.map (fun col =>
            (col.docs.filter (ckptDelMatch u c col)).length)).sum) := by
  rw [delete_chat_ok_case st u c hmsg hdel]
  show DeleteOutcome.ok _ _ _ _ = _
  rw [delete_chat_embeddings_count st.qdrant u c he hc hn,
      delete_ckpts_count st.mongo u c ho hb]

/-- Witness for C1: on a benign concrete state the amended count equation
yields the success response `ok 2 1 1 2`. -/
theorem claim_C1_witness :
    getUserChat wC1.chats "u" "c" ≠ [] ∧
    (delete_chat wC1 "u" "c").1 = DeleteOutcome.ok 2 1 1 2 := by
  refine ⟨by decide, ?_⟩
  have h := claim_C1_amended_counts wC1 "u" "c" (by decide) (by decide)
    (by decide) (by decide) (by decide) (by decide) (by decide)
  rw [h]; decide

/-- C6: `get_checkpoint_count` counts only thread-id-matched documents inside
checkpoint-named collections, so it never exceeds — and for some database
states is strictly below — what `delete_chat_checkpoints` deletes: in the
concrete state a bare-field document in a non-checkpoint collection is
deleted (count 1) but not counted (count 0). -/
theorem claim_C6_count_delete_asymmetry :
    (∀ st u c, c ≠ "" →
      get_checkpoint_count st u (some c) ≤ (delete_chat_checkpoints st u c).1) ∧
    get_checkpoint_count exC6 "u1" (some "c1") = 0 ∧
    (delete_chat_checkpoints exC6 "u1" "c1").1 = 1 := by
  refine ⟨?_, by decide, by decide⟩
  intro st u c hc
  by_cases ho : st.opError = true
  · simp [get_checkpoint_count, ho]
  · have ho' : st.opError = false := by simpa using ho
    have hc' : (c != "") = true := bne_iff_ne.mpr hc
    simp only [get_checkpoint_count, delete_chat_checkpoints, ho',
      Bool.false_eq_true, if_false, hc', if_true, List.map_map]
    refine le_trans (le_of_eq ?_) (Nat.le_add_right _ _)
    rw [← sum_pass1 (threadId u c) st.collections]
    rfl

/-- Witness for C6: the general bound applied at the concrete state. -/
theorem claim_C6_witness :
    ("c1" : String) ≠ "" ∧
    get_checkpoint_count exC6 "u1" (some "c1") ≤
      (delete_chat_checkpoints exC6 "u1" "c1").1 :=
  ⟨by decide, claim_C6_count_delete_asymmetry.1 exC6 "u1" "c1" (by decide)⟩

/-! ## Tag-set lemmas for the ingestion protocol (C9) -/

theorem tagLookup_cons (p : String × String) (l : List (String × String))
    (k : String) :
    tagLookup (p :: l) k = if p.1 == k then some p.2 else tagLookup l k := by
  by_cases hp : (p.1 == k) = true <;> simp [tagLookup, List.find?_cons, hp]

theorem tagLookup_setTag_self (t : List (String × String)) (k v : String) :
    tagLookup (setTag t k v) k = some v := by
  induction t with
  | nil => simp [setTag, tagLookup_cons, tagLookup]
  | cons p t ih =>
      by_cases hp : (p.1 == k) = true
      · simp [setTag, hp, tagLookup_cons]
      · simp [setTag, hp, tagLookup_cons, ih]

theorem tagLookup_setTag_other (t : List (String × String)) (k v k' : String)
    (hkk : k' ≠ k) :
    tagLookup (setTag t k v) k' = tagLookup t k' := by
  have hkf : ((k : String) == k') = false := by
    simp only [beq_eq_false_iff_ne]
    exact Ne.symm hkk
  induction t with
  | nil => simp [setTag, tagLookup_cons, tagLookup, hkf]
  | cons p t ih =>
      by_cases hp : (p.1 == k) = true
      · have hp' : p.1 = k := by simpa using hp
        have hpk : (p.1 == k') = false := by rw [hp']; exact hkf
        simp [setTag, hp, tagLookup_cons, hpk, hkf]
      · by_cases hpk : (p.1 == k') = true
        · simp [setTag, hp, tagLookup_cons, hpk]
        · simp [setTag, hp, tagLookup_cons, hpk, ih]

theorem ingest_find_update (l : List MObj) (k v : String)
    (o : MObj) (h : l.find? (fun x => x.key == k) = some o) :
    (l.map (fun x =>
        if x.key == k then { x with tags := setTag x.tags "status" v } else x)).find?
      (fun x => x.key == k)
      = some { o with tags := setTag o.tags "status" v } := by
  induction l with
  | nil => simp at h
  | cons a t ih =>
      by_cases ha : (a.key == k) = true
      · rw [List.find?_cons_of_pos t ha] at h
        injection h with ho
        subst ho
        rw [List.map_cons, if_pos ha]
        exact List.find?_cons_of_pos _ ha
      · rw [List.find?_cons_of_neg t ha] at h
        rw [List.map_cons, if_neg ha]
        have hstep := @List.find?_cons_of_neg MObj (fun x => x.key == k) a
          (List.map (fun x =>
            if x.key == k then { x with tags := setTag x.tags "status" v } else x) t) ha
        exact hstep.trans (ih h)

/-- C9: on background-ingestion completion the worker rewrites the object's
tag set with only the `status` key replaced — `indexed` on success, `error`
when the pipeline raised — leaving every other tag pair unchanged; and when
the object has disappeared (the tag read raises), the failure is swallowed
and the store is left untouched. -/
theorem claim_C9_status_tag_protocol (st : MinioState) (k : String) (b : Bool) :
    (st.objects.any (fun o => o.key == k) = false → ingest st k b = st) ∧
    (∀ o, st.objects.find? (fun x => x.key == k) = some o →
      (ingest st k b).objects.find? (fun x => x.key == k) =
        some { o with tags := setTag o.tags "status" (if b then "error" else "indexed") } ∧
      tagLookup (setTag o.tags "status" (if b then "error" else "indexed")) "status" =
        some (if b then "error" else "indexed") ∧
      ∀ k', k' ≠ "status" →
        tagLookup (setTag o.tags "status" (if b then "error" else "indexed")) k' =
          tagLookup o.tags k') := by
  constructor
  · intro hno
    simp [ingest, hno]
  · intro o h
    have hp := List.find?_some h
    have hm := List.mem_of_find?_eq_some h
    have hany : st.objects.any (fun x => x.key == k) = true :=
      List.any_eq_true.mpr ⟨o, hm, hp⟩
    refine ⟨?_, tagLookup_setTag_self _ _ _, fun k' hk' =>
      tagLookup_setTag_other _ _ _ _ hk'⟩
    simp only [ingest, hany, if_true]
    exact ingest_find_update st.objects k _ o h

/-- Witness for C9: on the concrete store, a failed ingestion of
`u/c/doc.pdf` flips its `status` tag to `error` and keeps `user_id`. -/
theorem claim_C9_witness :
    wC9.objects.find? (fun x => x.key == "u/c/doc.pdf") =
      some ⟨"u/c/doc.pdf", [("user_id", "u"), ("chat_id", "c"),
        ("type", "UploadedDocument"), ("status", "processing")], false⟩ ∧
    tagLookup (setTag [("user_id", "u"), ("chat_id", "c"),
        ("type", "UploadedDocument"), ("status", "processing")] "status"
        (if true then "error" else "indexed")) "status" = some "error" ∧
    tagLookup (setTag [("user_id", "u"), ("chat_id", "c"),
        ("type", "UploadedDocument"), ("status", "processing")] "status"
        (if true then "error" else "indexed")) "user_id" = some "u" := by
  have h := (claim_C9_status_tag_protocol wC9 "u/c/doc.pdf" true).2
    ⟨"u/c/doc.pdf", [("user_id", "u"), ("chat_id", "c"),
      ("type", "UploadedDocument"), ("status", "processing")], false⟩ (by decide)
  refine ⟨by decide, ?_, ?_⟩
  · exact h.2.1
  · have h3 := h.2.2 "user_id" (by decide)
    rw [h3]; decide

/-! ## Sanitization lemmas (C7) -/

theorem mem_stripDotUnd (ch : Char) (l : List Char) (h : ch ∈ stripDotUnd l) :
    ch ∈ l := by
  unfold stripDotUnd at h
  rw [List.mem_reverse] at h
  have h1 : ch ∈ (l.dropWhile isDotUnd).reverse :=
    (List.dropWhile_sublist _).subset h
  rw [List.mem_reverse] at h1
  exact (List.dropWhile_sublist _).subset h1

theorem allowedChar_replChar (ch : Char) : allowedChar (replChar ch) = true := by
  by_cases h : allowedChar ch = true
  · simp [replChar, h]
  · unfold replChar
    rw [if_neg h]
    decide

theorem safeStem_ne_nil (nm : List Char) : safeStem nm ≠ [] := by
  unfold safeStem
  by_cases h : stripDotUnd (nm.map replChar) = []
  · rw [if_pos h]
    decide
  · rw [if_neg h]
    exact h

theorem safeStem_allowed (nm : List Char) :
    ∀ ch ∈ safeStem nm, allowedChar ch = true := by
  intro ch hch
  unfold safeStem at hch
  by_cases h : stripDotUnd (nm.map replChar) = []
  · rw [if_pos h] at hch
    have hall : ∀ x ∈ "document".data, allowedChar x = true := by decide
    exact hall ch hch
  · rw [if_neg h] at hch
    obtain ⟨a, _, ha⟩ := List.mem_map.mp (mem_stripDotUnd ch _ hch)
    rw [← ha]
    exact allowedChar_replChar a

theorem head?_dropWhile_all {α : Type} (p : α → Bool) (l : List α) :
    (l.dropWhile p).head?.all (fun a => !(p a)) = true := by
  induction l with
  | nil => rfl
  | cons a t ih =>
      cases hp : p a
      · simp [List.dropWhile_cons, hp]
      · simp [List.dropWhile_cons, hp, ih]

theorem stripDotUnd_ends (l : List Char) :
    (stripDotUnd l).head?.all (fun ch => !(isDotUnd ch)) = true ∧
    (stripDotUnd l).getLast?.all (fun ch => !(isDotUnd ch)) = true := by
  constructor
  · cases hs : stripDotUnd l with
    | nil => rfl
    | cons a t =>
        have hsuf : List.dropWhile isDotUnd (List.dropWhile isDotUnd l).reverse
            <:+ (List.dropWhile isDotUnd l).reverse := List.dropWhile_suffix isDotUnd
        obtain ⟨pre, hpre⟩ := hsuf
        have hm : List.dropWhile isDotUnd l = stripDotUnd l ++ pre.reverse := by
          have h2 := congrArg List.reverse hpre
          rw [List.reverse_append, List.reverse_reverse] at h2
          rw [← h2]
          rfl
        have hall := head?_dropWhile_all isDotUnd l
        rw [hm, hs] at hall
        simpa using hall
  · unfold stripDotUnd
    rw [List.getLast?_reverse]
    exact head?_dropWhile_all _ _

theorem safeStem_ends (nm : List Char) :
    (safeStem nm).head?.all (fun ch => !(isDotUnd ch)) = true ∧
    (safeStem nm).getLast?.all (fun ch => !(isDotUnd ch)) = true := by
  by_cases h : stripDotUnd (nm.map replChar) = []
  · have hd : safeStem nm = "document".data := by simp [safeStem, h]
    rw [hd]
    exact ⟨by decide, by decide⟩
  · have hd : safeStem nm = stripDotUnd (nm.map replChar) := by simp [safeStem, h]
    rw [hd]
    exact stripDotUnd_ends _

/-- C7 counterexample: for the filename `report.p@f` the code stores key
`u/c/report.p@f` — the `@` inside the `splitext` extension survives — while
the claim's sanitization procedure (replace every out-of-class character of
the whole name) would give `u/c/report.p_f`. -/
theorem claim_C7_counterexample :
    uploadObjectKey "u" "c" "report.p@f" = "u/c/report.p@f" ∧
    claimKey "u" "c" "report.p@f" = "u/c/report.p_f" ∧
    uploadObjectKey "u" "c" "report.p@f" ≠ claimKey "u" "c" "report.p@f" :=
  ⟨by decide, by decide, by decide⟩

/-- C7 amended: the stored key is `user_id ++ "/" ++ chat_id ++ "/" ++ s`,
where `s = t ++ ext` for `splitext (basename filename) = (stem, ext)`: `t` is
the stem with every character outside `[0-9a-zA-Z._-]` replaced by `_`,
leading/trailing `.`/`_` trimmed, and `document` substituted when empty
(nonempty, all characters in the class, no `.`/`_` at either end), while the
extension `ext` is re-attached unchanged — not sanitized. -/
theorem claim_C7_amended_key_format (u c f : String) :
    uploadObjectKey u c f = u ++ "/" ++ c ++ "/" ++ sanitize_filename f ∧
    (sanitize_filename f).data =
      safeStem (pysplitext (pybasename f.data)).1 ++ (pysplitext (pybasename f.data)).2 ∧
    safeStem (pysplitext (pybasename f.data)).1 ≠ [] ∧
    (∀ ch ∈ safeStem (pysplitext (pybasename f.data)).1, allowedChar ch = true) ∧
    (safeStem (pysplitext (pybasename f.data)).1).head?.all
      (fun ch => !(isDotUnd ch)) = true ∧
    (safeStem (pysplitext (pybasename f.data)).1).getLast?.all
      (fun ch => !(isDotUnd ch)) = true :=
  ⟨rfl, rfl, safeStem_ne_nil _, safeStem_allowed _, (safeStem_ends _).1,
   (safeStem_ends _).2⟩

/-- Witness for C7: the amended key equation evaluated on a concrete upload. -/
theorem claim_C7_witness :
    uploadObjectKey "u" "c" "dir/My Doc (1).pdf" = "u/c/My_Doc__1.pdf" := by
  have h := claim_C7_amended_key_format "u" "c" "dir/My Doc (1).pdf"
  rw [h.1]
  decide

/-! ## Isolation lemmas (C2) -/

theorem removeStep_filter_eq (s : MinioState) (k : String) (isB : MObj → Bool)
    (h : ∀ o ∈ s.objects, isB o = true → (o.key == k) = false) :
    (removeStep s k).objects.filter isB = s.objects.filter isB := by
  unfold removeStep remove_object
  by_cases hfail : s.objects.any (fun o => o.key == k && o.removeFails) = true
  · simp [hfail]
  · have h' : ∀ o ∈ s.objects, isB o = true → (o.key != k) = true := by
      intro o ho hb
      have hk := h o ho hb
      simp [bne, hk]
    simp only [hfail, if_false, Bool.false_eq_true]
    exact filter_filter_of_imp _ _ _ h'

theorem removeStep_sublist (s : MinioState) (k : String) :
    ((removeStep s k).objects).Sublist s.objects := by
  unfold removeStep remove_object
  by_cases hfail : s.objects.any (fun o => o.key == k && o.removeFails) = true
  · simp [hfail]
  · simp only [hfail, if_false, Bool.false_eq_true]
    exact List.filter_sublist _

theorem removeLoop_filter_eq (keys : List String) (s : MinioState)
    (isB : MObj → Bool)
    (h : ∀ o ∈ s.objects, isB o = true → ∀ k ∈ keys, (o.key == k) = false) :
    (removeLoop s keys).objects.filter isB = s.objects.filter isB := by
  induction keys generalizing s with
  | nil => rfl
  | cons k ks ih =>
      have h1 : ∀ o ∈ s.objects, isB o = true → (o.key == k) = false :=
        fun o ho hb => h o ho hb k (List.mem_cons_self k ks)
      have h2 : ∀ o ∈ (removeStep s k).objects, isB o = true →
          ∀ k' ∈ ks, (o.key == k') = false :=
        fun o ho hb k' hk' =>
          h o ((removeStep_sublist s k).subset ho) hb k' (List.mem_cons_of_mem k hk')
      exact (ih (removeStep s k) h2).trans (removeStep_filter_eq s k isB h1)

theorem delete_embeddings_other_chat (st : QdrantState) (uA cA uB cB : String)
    (hpair : (uA, cA) ≠ (uB, cB))
    (hids : (st.points.map (fun p => p.id)).Nodup) :
    ((delete_chat_embeddings st uA cA).2).points.filter (embMatch uB cB)
      = st.points.filter (embMatch uB cB) := by
  unfold delete_chat_embeddings
  by_cases he : st.clientError = true
  · simp [he]
  · by_cases hc : st.collectionExists = true
    · by_cases hlen :
        0 < (((st.points.filter (embMatch uA cA)).take 10000).map
          (fun p => p.id)).length
      · simp only [he, hc, Bool.not_true, Bool.false_eq_true, if_false, hlen,
          if_true]
        apply filter_filter_of_imp
        intro p hp hB
        cases hdec : (decide (p.id ∈
            ((st.points.filter (embMatch uA cA)).take 10000).map (fun q => q.id)))
        · rfl
        · exfalso
          have hmem := of_decide_eq_true hdec
          obtain ⟨q, hq_mem, hq_id⟩ := List.mem_map.mp hmem
          have hq_in_filter : q ∈ st.points.filter (embMatch uA cA) :=
            (List.take_sublist _ _).subset hq_mem
          have hq_pts : q ∈ st.points := List.mem_of_mem_filter hq_in_filter
          have hq_match := List.of_mem_filter hq_in_filter
          have hpq : q = p := List.inj_on_of_nodup_map hids hq_pts hp hq_id
          rw [hpq] at hq_match
          have h1 : p.user_id = uA ∧ p.chat_id = cA := by
            simpa [embMatch] using hq_match
          have h2 : p.user_id = uB ∧ p.chat_id = cB := by
            simpa [embMatch] using hB
          exact hpair (by rw [← h1.1, ← h1.2, ← h2.1, ← h2.2])
      · have hlen' : ¬ 0 < (st.points.filter (embMatch uA cA)).length := by
          simp only [List.length_map, List.length_take] at hlen
          omega
        simp [he, hc, hlen']
    · have hc' : st.collectionExists = false := by simpa using hc
      simp [he, hc']

theorem wellKeyed_not_tidA (uA cA uB cB : String)
    (htid : threadId uA cA ≠ threadId uB cB) (d : CkptDoc)
    (h : wellKeyed uB cB d = true) :
    (!(tidMatch (threadId uA cA) d)) = true := by
  cases htm : tidMatch (threadId uA cA) d
  · rfl
  · exfalso
    have ht : d.thread_id = some (threadId uA cA) := by simpa [tidMatch] using htm
    have h1 : (d.thread_id == some (threadId uB cB) || d.thread_id == none) = true := by
      simp only [wellKeyed, Bool.and_eq_true] at h
      exact h.1
    rcases Bool.or_eq_true_iff.mp h1 with h2 | h2
    · have h3 : d.thread_id = some (threadId uB cB) := by simpa using h2
      rw [ht] at h3
      injection h3 with h3
      exact htid h3
    · have h3 : d.thread_id = none := by simpa using h2
      rw [ht] at h3
      exact Option.noConfusion h3

theorem wellKeyed_not_bareA (uA cA uB cB : String)
    (hpair : (uA, cA) ≠ (uB, cB)) (d : CkptDoc)
    (h : wellKeyed uB cB d = true) :
    (!(bareMatch uA cA d)) = true := by
  cases hbm : bareMatch uA cA d
  · rfl
  · exfalso
    have hb : d.user_id = some uA ∧ d.chat_id = some cA := by
      simpa [bareMatch] using hbm
    have h2 : ((d.user_id == some uB && d.chat_id == some cB) ||
        (d.user_id == none && d.chat_id == none)) = true := by
      simp only [wellKeyed, Bool.and_eq_true] at h
      exact h.2
    rcases Bool.or_eq_true_iff.mp h2 with h3 | h3
    · have h4 : d.user_id = some uB ∧ d.chat_id = some cB := by simpa using h3
      obtain ⟨e1, e2⟩ := hb
      rw [h4.1] at e1
      rw [h4.2] at e2
      injection e1 with e1
      injection e2 with e2
      exact hpair (by rw [e1, e2])
    · have h4 : d.user_id = none := by
        have := h3
        simp only [Bool.and_eq_true] at this
        simpa using this.1
      rw [h4] at hb
      exact Option.noConfusion hb.1

theorem passes_preserve_wellKeyed (uA cA uB cB : String) (col : MCollection)
    (hpair : (uA, cA) ≠ (uB, cB)) (htid : threadId uA cA ≠ threadId uB cB) :
    ((pass2 uA cA (pass1 (threadId uA cA) col).2).2.name,
     (pass2 uA cA (pass1 (threadId uA cA) col).2).2.docs.filter (wellKeyed uB cB))
      = (col.name, col.docs.filter (wellKeyed uB cB)) := by
  have hA1 : ∀ (l : List CkptDoc), ∀ d ∈ l, wellKeyed uB cB d = true →
      (!(tidMatch (threadId uA cA) d)) = true :=
    fun _ d _ hd => wellKeyed_not_tidA uA cA uB cB htid d hd
  have hA2 : ∀ (l : List CkptDoc), ∀ d ∈ l, wellKeyed uB cB d = true →
      (!(bareMatch uA cA d)) = true :=
    fun _ d _ hd => wellKeyed_not_bareA uA cA uB cB hpair d hd
  by_cases hn : nameHasCkpt col.name = true
  · by_cases hbf : col.bareScanFails = true
    · simp only [pass1, hn, if_true, pass2, hbf, Prod.mk.injEq]
      exact ⟨trivial, filter_filter_of_imp _ _ _ (hA1 col.docs)⟩
    · have hbf' : col.bareScanFails = false := by simpa using hbf
      simp only [pass1, hn, if_true, pass2, hbf', Bool.false_eq_true, if_false,
        Prod.mk.injEq]
      refine ⟨trivial, ?_⟩
      rw [filter_filter_of_imp _ _ _
        (hA2 (col.docs.filter (fun d => !(tidMatch (threadId uA cA) d))))]
      exact filter_filter_of_imp _ _ _ (hA1 col.docs)
  · have hn' : nameHasCkpt col.name = false := by simpa using hn
    by_cases hbf : col.bareScanFails = true
    · simp [pass1, hn', pass2, hbf]
    · have hbf' : col.bareScanFails = false := by simpa using hbf
      simp only [pass1, hn', Bool.false_eq_true, if_false, pass2, hbf',
        Prod.mk.injEq]
      exact ⟨trivial, filter_filter_of_imp _ _ _ (hA2 col.docs)⟩

theorem delete_ckpts_other_chat (st : MongoState) (uA cA uB cB : String)
    (hpair : (uA, cA) ≠ (uB, cB))
    (htid : threadId uA cA ≠ threadId uB cB) :
    ((delete_chat_checkpoints st uA cA).2).collections.map
        (fun col => (col.name, col.docs.filter (wellKeyed uB cB)))
      = st.collections.map
        (fun col => (col.name, col.docs.filter (wellKeyed uB cB))) := by
  unfold delete_chat_checkpoints
  by_cases ho : st.opError = true
  · simp [ho]
  · simp only [ho, Bool.false_eq_true, if_false, List.map_map]
    apply List.map_congr_left
    intro col _
    exact passes_preserve_wellKeyed uA cA uB cB col hpair htid

theorem history_preserves_other (stc : ChatStoreState) (uA cA uB cB : String)
    (hpair : (uA, cA) ≠ (uB, cB)) :
    getUserChat (deleteChatHistory stc uA cA).2 uB cB = getUserChat stc uB cB := by
  unfold deleteChatHistory
  by_cases hd : stc.deleteFails = true
  · simp [hd]
  · have hd' : stc.deleteFails = false := by simpa using hd
    simp only [hd', Bool.false_eq_true, if_false, getUserChat]
    apply filter_filter_of_imp
    intro m _ hm
    cases hb : (m.user_id == uA && m.chat_id == cA)
    · rfl
    · exfalso
      have h1 : m.user_id = uA ∧ m.chat_id = cA := by simpa using hb
      have h2 : m.user_id = uB ∧ m.chat_id = cB := by simpa using hm
      exact hpair (by rw [← h1.1, ← h1.2, ← h2.1, ← h2.2])

theorem delete_chat_snd (st : SysState) (u c : String)
    (h : getUserChat st.chats u c ≠ []) :
    (delete_chat st u c).2 =
      ⟨removeLoop st.minio ((list_objects st.minio (chatPre u c)).map (fun o => o.key)),
       (delete_chat_embeddings st.qdrant u c).2,
       (delete_chat_checkpoints st.mongo u c).2,
       (deleteChatHistory st.chats u c).2⟩ := by
  by_cases hd : st.chats.deleteFails = true
  · rw [delete_chat_err_case st u c h hd]
    simp [deleteChatHistory, hd]
  · have hd' : st.chats.deleteFails = false := by simpa using hd
    rw [delete_chat_ok_case st u c h hd']
    simp [deleteChatHistory, hd']

/-- C2 counterexample: chats `A = ("a","b_c")` and `B = ("a_b","c")` are
distinct, yet deleting `A` destroys `B`'s only checkpoint record (keyed by
`B`'s thread id and bare fields), because both chats share the unescaped
composite thread id `"a_b_c"`. -/
theorem claim_C2_counterexample :
    (("a", "b_c") : String × String) ≠ ("a_b", "c") ∧
    chatCkptDocs exC2.mongo "a_b" "c" = [⟨some "a_b_c", some "a_b", some "c"⟩] ∧
    chatCkptDocs ((delete_chat exC2 "a" "b_c").2).mongo "a_b" "c" = [] :=
  ⟨by decide, by decide, by decide⟩

/-- C2 amended: deleting chat `A` leaves chat `B`'s messages, prefix-scoped
objects, embedding points and consistently-keyed checkpoint documents
untouched, provided the two chats are distinct, their composite thread ids
differ (the unescaped underscore join can otherwise collide), no `B` object
key lies under `A`'s storage prefix (the unescaped slash join can otherwise
collide), and point ids are unique. -/
theorem claim_C2_amended_isolation (st : SysState) (uA cA uB cB : String)
    (hpair : (uA, cA) ≠ (uB, cB))
    (htid : threadId uA cA ≠ threadId uB cB)
    (hobj : ∀ o ∈ st.minio.objects,
      List.isPrefixOf (chatPre uB cB).data o.key.data = true →
      List.isPrefixOf (chatPre uA cA).data o.key.data = false)
    (hids : (st.qdrant.points.map (fun p => p.id)).Nodup) :
    getUserChat ((delete_chat st uA cA).2).chats uB cB
      = getUserChat st.chats uB cB ∧
    ((delete_chat st uA cA).2).minio.objects.filter
        (fun o => List.isPrefixOf (chatPre uB cB).data o.key.data)
      = st.minio.objects.filter
        (fun o => List.isPrefixOf (chatPre uB cB).data o.key.data) ∧
    ((delete_chat st uA cA).2).qdrant.points.filter (embMatch uB cB)
      = st.qdrant.points.filter (embMatch uB cB) ∧
    ((delete_chat st uA cA).2).mongo.collections.map
        (fun col => (col.name, col.docs.filter (wellKeyed uB cB)))
      = st.mongo.collections.map
        (fun col => (col.name, col.docs.filter (wellKeyed uB cB))) := by
  by_cases h0 : getUserChat st.chats uA cA = []
  · rw [delete_chat_of_no_messages st uA cA h0]
    exact ⟨rfl, rfl, rfl, rfl⟩
  · rw [delete_chat_snd st uA cA h0]
    refine ⟨history_preserves_other st.chats uA cA uB cB hpair, ?_,
      delete_embeddings_other_chat st.qdrant uA cA uB cB hpair hids,
      delete_ckpts_other_chat st.mongo uA cA uB cB hpair htid⟩
    apply removeLoop_filter_eq
    intro o ho hB k hk
    obtain ⟨o2, ho2, hk2⟩ := List.mem_map.mp hk
    have ho2f : o2 ∈ st.minio.objects := List.mem_of_mem_filter ho2
    have ho2p := List.of_mem_filter ho2
    cases hek : (o.key == k)
    · rfl
    · exfalso
      have hke : o.key = k := by simpa using hek
      rw [← hk2] at hke
      have hap : List.isPrefixOf (chatPre uA cA).data o.key.data = true := by
        rw [hke]
        exact ho2p
      rw [hobj o ho hB] at hap
      exact absurd hap (by decide)

/-- Witness for C2: two chats of the same user; deleting the first leaves the
second's messages untouched. -/
theorem claim_C2_witness :
    (("u1", "c1") : String × String) ≠ ("u1", "c2") ∧
    getUserChat ((delete_chat wC2 "u1" "c1").2).chats "u1" "c2"
      = getUserChat wC2.chats "u1" "c2" :=
  ⟨by decide,
   (claim_C2_amended_isolation wC2 "u1" "c1" "u1" "c2"
     (by decide) (by decide) (by decide) (by decide)).1⟩

end Sudar
